import Mathlib

/-!
Verification of the layout and rendering engine of `submodmax/visualize.py`.

The embedding below mirrors the Python source.  Exact rational arithmetic
(`ℚ`) stands in for Python floats where the source computes coordinates,
sizes and rounded ratios; fallible code paths (dictionary lookups,
out-of-range list indexing) are embedded with `Option`, where `none` marks
the Python call raising (`KeyError` / `IndexError`) before any figure is
produced or saved.
-/

namespace SubModMax

/-! ### Edge classifier (visualize_scenario, lines 70-71)

`straight_edges = [(u, v) for u, v in G.edges() if abs(u - v) == 1]`
`curved_edges   = [(u, v) for u, v in G.edges() if abs(u - v) > 1]`
-/

/-- The straight edges of the drawn agent graph: endpoint distance exactly 1. -/
def straight_edges (edges : List (Int × Int)) : List (Int × Int) :=
  edges.filter (fun e => (e.1 - e.2).natAbs == 1)

/-- The curved edges of the drawn agent graph: endpoint distance above 1. -/
def curved_edges (edges : List (Int × Int)) : List (Int × Int) :=
  edges.filter (fun e => decide ((e.1 - e.2).natAbs > 1))

/-! ### Geometry engine (visualize_scenario, lines 60-66)

`pos_top = {agent: (agent - 1, 0.1) for agent in range(1, agent_count + 1)}`
`pos_bottom = {pseudo_targets[i]: (i - 1, -0.2) for i in range(1, target_count + 1)}`
`x_coords_top = [pos_top[agent][0] for agent in pos_top]`
`center_x_top = sum(x_coords_top) / len(x_coords_top)`
`shift_x = center_x_top - (len(pos_bottom) - 1) / 2`
`pos_bottom_centered = {t: (pos_bottom[t][0] + shift_x, pos_bottom[t][1]) ...}`
-/

/-- Position of agent `i` (1-indexed) on the top row. -/
def pos_top (i : ℕ) : ℚ × ℚ := ((i : ℚ) - 1, 1/10)

/-- The x coordinates of the agent row, agents `1..agent_count`. -/
def x_coords_top (agent_count : ℕ) : List ℚ :=
  (List.range' 1 agent_count).map (fun a => (pos_top a).1)

/-- Centroid x of the agent row. -/
def center_x_top (agent_count : ℕ) : ℚ :=
  (x_coords_top agent_count).sum / (x_coords_top agent_count).length

/-- Uncentered position of target `j` (1-indexed) on the bottom row. -/
def pos_bottom (j : ℕ) : ℚ × ℚ := ((j : ℚ) - 1, -(1/5))

/-- Horizontal shift applied to the target row. -/
def shift_x (agent_count target_count : ℕ) : ℚ :=
  center_x_top agent_count - ((target_count : ℚ) - 1) / 2

/-- Centered position of target `j` (1-indexed). -/
def pos_bottom_centered (agent_count target_count j : ℕ) : ℚ × ℚ :=
  ((pos_bottom j).1 + shift_x agent_count target_count, (pos_bottom j).2)

/-- Centroid x of the centered target row, targets `1..target_count`. -/
def target_row_centroid (agent_count target_count : ℕ) : ℚ :=
  (((List.range' 1 target_count).map
      (fun j => (pos_bottom_centered agent_count target_count j).1)).sum) /
    target_count

/-- Node visual size: `node_size = 500 * (5 / agent_count)` (line 56). -/
def node_size (agent_count : ℕ) : ℚ := 500 * (5 / (agent_count : ℚ))

end SubModMax

namespace SubModMax

lemma sum_range'_one_sub_one (n : ℕ) :
    ((List.range' 1 n).map (fun (a : ℕ) => ((a : ℚ) - 1))).sum = n * ((n : ℚ) - 1) / 2 := by
  induction n with
  | zero => simp
  | succ m ih =>
    rw [List.range'_concat, List.map_append, List.sum_append, ih]
    simp only [List.map_cons, List.map_nil, List.sum_cons, List.sum_nil]
    push_cast
    ring

lemma sum_range'_one_sub_one_add (n : ℕ) (c : ℚ) :
    ((List.range' 1 n).map (fun (a : ℕ) => ((a : ℚ) - 1 + c))).sum =
      n * ((n : ℚ) - 1) / 2 + n * c := by
  induction n with
  | zero => simp
  | succ m ih =>
    rw [List.range'_concat, List.map_append, List.sum_append, ih]
    simp only [List.map_cons, List.map_nil, List.sum_cons, List.sum_nil]
    push_cast
    ring

lemma x_coords_top_length (A : ℕ) : (x_coords_top A).length = A := by
  simp [x_coords_top]

lemma center_x_top_eq (A : ℕ) (hA : 1 ≤ A) :
    center_x_top A = ((A : ℚ) - 1) / 2 := by
  have hApos : 0 < A := hA
  have hA0 : (A : ℚ) ≠ 0 := by exact_mod_cast hApos.ne'
  unfold center_x_top
  rw [x_coords_top_length]
  unfold x_coords_top
  simp only [pos_top]
  rw [sum_range'_one_sub_one]
  field_simp
  ring

/-- C1 counterexample: a self-loop edge `(1, 1)` belongs to the graph's edge
list but to neither the straight nor the curved list, so the two lists do not
cover the edge set when the graph contains a self-loop. -/
theorem straight_curved_selfloop_cex :
    ((1 : Int), (1 : Int)) ∈ [((1 : Int), (1 : Int))]
  ∧ ((1 : Int), (1 : Int)) ∉ straight_edges [((1 : Int), (1 : Int))]
  ∧ ((1 : Int), (1 : Int)) ∉ curved_edges [((1 : Int), (1 : Int))] := by
  decide

/-- C1 (amended): the straight/curved classification partitions the edges with
distinct endpoints — every edge with `u ≠ v` lands in exactly one of the two
lists, both lists draw only from the graph's edges, and a self-loop edge
(`u = v`) lands in neither list. -/
theorem straight_curved_partition (edges : List (Int × Int)) :
    (∀ e ∈ edges, e.1 ≠ e.2 →
      (e ∈ straight_edges edges ∧ e ∉ curved_edges edges) ∨
      (e ∉ straight_edges edges ∧ e ∈ curved_edges edges))
  ∧ (∀ e ∈ edges, e.1 = e.2 →
      e ∉ straight_edges edges ∧ e ∉ curved_edges edges)
  ∧ (∀ e, (e ∈ straight_edges edges ∨ e ∈ curved_edges edges) → e ∈ edges) := by
  refine ⟨?_, ?_, ?_⟩
  · intro e he hne
    have hsub : e.1 - e.2 ≠ 0 := sub_ne_zero.mpr hne
    have habs : (e.1 - e.2).natAbs ≠ 0 := Int.natAbs_ne_zero.mpr hsub
    rcases Nat.lt_or_ge 1 (e.1 - e.2).natAbs with hgt | hle
    · right
      constructor
      · simp only [straight_edges, List.mem_filter, beq_iff_eq]
        rintro ⟨-, h1⟩
        omega
      · simp only [curved_edges, List.mem_filter, decide_eq_true_eq]
        exact ⟨he, hgt⟩
    · left
      have h1 : (e.1 - e.2).natAbs = 1 := by omega
      constructor
      · simp only [straight_edges, List.mem_filter, beq_iff_eq]
        exact ⟨he, h1⟩
      · simp only [curved_edges, List.mem_filter, decide_eq_true_eq]
        rintro ⟨-, hgt⟩
        omega
  · intro e _ heq
    have habs : (e.1 - e.2).natAbs = 0 := by
      simp [sub_eq_zero.mpr heq]
    constructor
    · simp only [straight_edges, List.mem_filter, beq_iff_eq]
      rintro ⟨-, h1⟩
      omega
    · simp only [curved_edges, List.mem_filter, decide_eq_true_eq]
      rintro ⟨-, hgt⟩
      omega
  · intro e h
    rcases h with h | h
    · exact (List.mem_filter.mp h).1
    · exact (List.mem_filter.mp h).1

/-- C1 witness: on the edge list `[(1, 2), (1, 3)]`, the partition theorem
places `(1, 2)` in the straight list and `(1, 3)` in the curved list. -/
theorem straight_curved_partition_witness :
    (((1 : Int), (2 : Int)) ∈ straight_edges [((1 : Int), (2 : Int)), ((1 : Int), (3 : Int))]
      ∧ ((1 : Int), (2 : Int)) ∉ curved_edges [((1 : Int), (2 : Int)), ((1 : Int), (3 : Int))])
  ∨ (((1 : Int), (2 : Int)) ∉ straight_edges [((1 : Int), (2 : Int)), ((1 : Int), (3 : Int))]
      ∧ ((1 : Int), (2 : Int)) ∈ curved_edges [((1 : Int), (2 : Int)), ((1 : Int), (3 : Int))]) :=
  (straight_curved_partition [((1 : Int), (2 : Int)), ((1 : Int), (3 : Int))]).1
    ((1 : Int), (2 : Int)) (by decide) (by decide)

/-- C2: for agent count `A ≥ 1` and target count `T ≥ 1`, agent `i` sits at
`(i - 1, 0.1)`, target `j` sits at `(j - 1 + shift, -0.2)` with
`shift = center_x(agents) - (T - 1) / 2`, and the centroid x of the centered
target row equals the centroid x of the agent row (exactly, in `ℚ`). -/
theorem target_centroid_eq_agent_centroid (A T : ℕ) (_hA : 1 ≤ A) (hT : 1 ≤ T) :
    (∀ i, pos_top i = ((i : ℚ) - 1, 1/10))
  ∧ (∀ j, pos_bottom_centered A T j = ((j : ℚ) - 1 + shift_x A T, -(1/5)))
  ∧ shift_x A T = center_x_top A - ((T : ℚ) - 1) / 2
  ∧ target_row_centroid A T = center_x_top A := by
  refine ⟨fun i => rfl, fun j => rfl, rfl, ?_⟩
  have hTpos : 0 < T := hT
  have hT0 : (T : ℚ) ≠ 0 := by exact_mod_cast hTpos.ne'
  unfold target_row_centroid
  simp only [pos_bottom_centered, pos_bottom]
  rw [sum_range'_one_sub_one_add]
  rw [shift_x]
  field_simp
  ring

/-- C2 witness: with 3 agents and 2 targets the centered target-row centroid
equals the agent-row centroid. -/
theorem target_centroid_eq_agent_centroid_witness :
    target_row_centroid 3 2 = center_x_top 3 :=
  (target_centroid_eq_agent_centroid 3 2 (by decide) (by decide)).2.2.2

/-- C9: the node visual size equals `500 * (5 / A)` and is strictly
decreasing in the agent count: for all `A2 > A1 ≥ 1`,
`node_size A2 < node_size A1`. -/
theorem node_size_decreasing (A1 A2 : ℕ) (h1 : 1 ≤ A1) (h12 : A1 < A2) :
    node_size A1 = 500 * (5 / (A1 : ℚ)) ∧ node_size A2 < node_size A1 := by
  refine ⟨rfl, ?_⟩
  unfold node_size
  have hA1 : (0 : ℚ) < A1 := by exact_mod_cast h1
  have hA12 : (A1 : ℚ) < A2 := by exact_mod_cast h12
  have hA2 : (0 : ℚ) < A2 := lt_trans hA1 hA12
  have h5 : (0 : ℚ) < 5 := by norm_num
  have := div_lt_div_of_pos_left h5 hA1 hA12
  linarith

/-- C9 witness: the node size for 2 agents is below the node size for 1
agent. -/
theorem node_size_decreasing_witness : node_size 2 < node_size 1 :=
  (node_size_decreasing 1 2 (by decide) (by decide)).2

/-! ### Title composition (visualize_scenario, lines 104-112)

```
if show_title:
    mod_title = title
    if assignment and show_metric_value:
        if metric == "score":
            mod_title = rf"{title} - $f(x) = {metric_value}$"
        if metric == "efficiency":
            mod_title = rf"{title} - $\gamma(x) = {metric_value}$"
    ax.set_title(mod_title, pad=20, color=text_color)
```
The f-string renders a missing (`None`) metric value as the text `None`.
-/

/-- Python f-string rendering of the `metric_value` argument: `None` when
absent, otherwise the value's own text. -/
def format_py_value : Option String → String
  | none => "None"
  | some s => s

/-- The `mod_title` computed by `visualize_scenario` when `show_title` holds:
the title string passed to `ax.set_title`. -/
def compose_title (title : String) (has_assignment show_metric_value : Bool)
    (metric : String) (metric_value : Option String) : String :=
  if has_assignment && show_metric_value then
    let t1 := if metric == "score" then
        title ++ (" - $f(x) = " ++ format_py_value metric_value ++ "$")
      else title
    if metric == "efficiency" then
      title ++ (" - $\\gamma(x) = " ++ format_py_value metric_value ++ "$")
    else t1
  else title

/-- Matplotlib mathtext display, character by character: the `$` math
delimiters are not shown and the TeX macro `\gamma` displays as `γ`. -/
def render_math_chars : List Char → List Char
  | [] => []
  | '\\' :: 'g' :: 'a' :: 'm' :: 'm' :: 'a' :: rest => 'γ' :: render_math_chars rest
  | '$' :: rest => render_math_chars rest
  | c :: rest => c :: render_math_chars rest

/-- Matplotlib mathtext display of a title string. -/
def render_math (s : String) : String :=
  String.mk (render_math_chars s.data)

/-- C4 counterexample: with an assignment, metric display enabled and
`metric_value = None`, the composed title is `"X - $f(x) = None$"` — the
interpolated placeholder `None` — not the unmodified title `"X"`. -/
theorem compose_title_none_cex :
    compose_title "X" true true "score" none = "X - $f(x) = None$"
  ∧ compose_title "X" true true "score" none ≠ "X" := by
  constructor
  · rfl
  · decide

/-- C4 (amended): a missing metric value does not make the title fall back to
the unmodified string and does not fail; the annotation is still appended,
with Python's rendering `None` of the missing value, for both metrics. -/
theorem compose_title_none_amended (title : String) :
    compose_title title true true "score" none = title ++ " - $f(x) = None$"
  ∧ compose_title title true true "efficiency" none =
      title ++ " - $\\gamma(x) = None$" := by
  constructor <;> rfl

/-- C6: with an assignment, metric display enabled and a metric value: the
rendered title for `title="X"`, `metric="score"`, value `3` is
`"X - f(x) = 3"`; for `metric="efficiency"` it is `"X - γ(x) = 3"` (so it
contains `"γ(x) ="`); without an assignment, or with metric display off, or
with an unrecognized metric, the title is used verbatim. -/
theorem title_composition :
    render_math (compose_title "X" true true "score" (some "3")) = "X - f(x) = 3"
  ∧ render_math (compose_title "X" true true "efficiency" (some "3")) = "X - γ(x) = 3"
  ∧ (∀ title metric mv, compose_title title false true metric mv = title)
  ∧ (∀ title metric mv, compose_title title true false metric mv = title)
  ∧ (∀ title metric mv, metric ≠ "score" → metric ≠ "efficiency" →
      compose_title title true true metric mv = title) := by
  refine ⟨by rfl, by rfl, ?_, ?_, ?_⟩
  · intro title metric mv
    simp [compose_title]
  · intro title metric mv
    simp [compose_title]
  · intro title metric mv h1 h2
    simp [compose_title, beq_eq_false_iff_ne.mpr h1, beq_eq_false_iff_ne.mpr h2]

/-- C6 witness: a metric string that is neither `"score"` nor `"efficiency"`
leaves a concrete title verbatim. -/
theorem title_composition_witness :
    compose_title "T" true true "other" none = "T" :=
  title_composition.2.2.2.2 "T" "other" none (by decide) (by decide)

/-! ### Comparison reporter (visualize_assignment_comparison, lines 141-165)

```
data = [["Optimal"] + [f"t{target}" for target in opt_assignment.get_choices()]
        + [opt_val] + [1.0]]
if not assignment_titles:
    assignment_titles = [f"Assignment #{i}" for i in range(1, len(assignment_list))]
for index, assignment in enumerate(assignment_list):
    assignment_val = score_assignment(assignment, target_values)
    ...
    data.append([assignment_titles[index]] + [f"t{target}" for ...]
                + [assignment_val] + [round(assignment_val / opt_val, 3)])
```
Each candidate is embedded as its choice list together with the score that
`score_assignment` (external to this module) computes for it; scores and the
optimal value are exact rationals.  An out-of-range `assignment_titles[index]`
is Python's `IndexError`, embedded as `none`: no table is printed then.
-/

/-- One data row of the comparison table. -/
structure ComparisonRow where
  rule : String
  choices : List String
  fx : ℚ
  gx : ℚ
deriving Repr, DecidableEq

/-- Rounding to the nearest integer with ties to the even neighbour, the
rule Python's built-in `round` follows. -/
def round_half_even (x : ℚ) : ℤ :=
  if x - ⌊x⌋ < 1/2 then ⌊x⌋
  else if 1/2 < x - ⌊x⌋ then ⌊x⌋ + 1
  else if ⌊x⌋ % 2 = 0 then ⌊x⌋ else ⌊x⌋ + 1

/-- Python's `round(x, 3)`: the value rounded to three decimal places. -/
def round3 (x : ℚ) : ℚ := ((round_half_even (x * 1000) : ℤ) : ℚ) / 1000

/-- The leading `"Optimal"` row. -/
def optimal_row (opt_choices : List Int) (opt_val : ℚ) : ComparisonRow :=
  ⟨"Optimal", opt_choices.map (fun t => "t" ++ toString t), opt_val, 1⟩

/-- A candidate row: choice labels, score, and the efficiency entry
`round(assignment_val / opt_val, 3)`. -/
def candidate_row (title : String) (choices : List Int) (val opt_val : ℚ) :
    ComparisonRow :=
  ⟨title, choices.map (fun t => "t" ++ toString t), val, round3 (val / opt_val)⟩

/-- The default titles `[f"Assignment #{i}" for i in range(1, len(assignment_list))]`:
note `range(1, n)` has `n - 1` elements. -/
def default_titles (n : ℕ) : List String :=
  (List.range' 1 (n - 1)).map (fun i => "Assignment #" ++ toString i)

/-- The loop body: one row per candidate, reading `assignment_titles[index]`
positionally; `none` embeds the `IndexError` raised when the titles run out. -/
def candidate_rows (opt_val : ℚ) :
    List (List Int × ℚ) → List String → Option (List ComparisonRow)
  | [], _ => some []
  | _ :: _, [] => none
  | (choices, val) :: rest, t :: ts =>
    (candidate_rows opt_val rest ts).map
      (fun rs => candidate_row t choices val opt_val :: rs)

/-- The full table that `visualize_assignment_comparison` tabulates, with the
default-title fallback (`if not assignment_titles`) of the source. -/
def comparison_table (opt_choices : List Int) (opt_val : ℚ)
    (assignments : List (List Int × ℚ)) (assignment_titles : List String) :
    Option (List ComparisonRow) :=
  let titles := if assignment_titles.isEmpty then default_titles assignments.length
    else assignment_titles
  (candidate_rows opt_val assignments titles).map
    (fun rs => optimal_row opt_choices opt_val :: rs)

lemma candidate_rows_spec (opt_val : ℚ) :
    ∀ (as_ : List (List Int × ℚ)) (ts : List String) (rs : List ComparisonRow),
      candidate_rows opt_val as_ ts = some rs →
      rs.length = as_.length ∧
      ∀ i choices val, as_.get? i = some (choices, val) →
        ∃ t, ts.get? i = some t ∧
          rs.get? i = some (candidate_row t choices val opt_val) := by
  intro as_
  induction as_ with
  | nil =>
    intro ts rs h
    simp only [candidate_rows, Option.some.injEq] at h
    subst h
    exact ⟨rfl, by intro i choices val h; simp at h⟩
  | cons a rest ih =>
    intro ts rs h
    cases ts with
    | nil =>
      obtain ⟨choices, val⟩ := a
      simp [candidate_rows] at h
    | cons t ts' =>
      obtain ⟨choices, val⟩ := a
      simp only [candidate_rows, Option.map_eq_some'] at h
      obtain ⟨rs', hrs', rfl⟩ := h
      obtain ⟨hlen, hrows⟩ := ih ts' rs' hrs'
      refine ⟨by simp [hlen], ?_⟩
      intro i c v hi
      cases i with
      | zero =>
        rw [List.get?_cons_zero] at hi
        injection hi with hi
        injection hi with h1 h2
        subst h1
        subst h2
        exact ⟨t, rfl, rfl⟩
      | succ j =>
        rw [List.get?_cons_succ] at hi
        obtain ⟨t', ht', hr'⟩ := hrows j c v hi
        exact ⟨t', by simpa using ht', by simpa using hr'⟩

/-- C3: the default-title generator is off by one and the reporter then
fails.  `range(1, len(assignment_list))` yields only `len - 1` default
titles (none at all for a single assignment), and tabulating any nonempty
assignment list under default titles aborts with an out-of-range title
lookup (`none`) instead of producing the table. -/
theorem default_titles_off_by_one :
    (default_titles 2).length = 1
  ∧ default_titles 2 = ["Assignment #1"]
  ∧ (default_titles 1).length = 0
  ∧ comparison_table [1] 5 [([1], (3 : ℚ)), ([1], (2 : ℚ))] [] = none
  ∧ comparison_table [1] 5 [([1], (3 : ℚ))] [] = none := by
  refine ⟨by decide, by decide, by decide, by decide, by decide⟩

/-- C8: whenever the comparison reporter builds its table (it does not abort
on a title lookup), the table has exactly `1 + len(assignment_list)` data
rows: the `"Optimal"` row first, then one candidate row per assignment in
list order. -/
theorem comparison_row_count (opt_choices : List Int) (opt_val : ℚ)
    (assignments : List (List Int × ℚ)) (assignment_titles : List String)
    (rows : List ComparisonRow)
    (h : comparison_table opt_choices opt_val assignments assignment_titles
      = some rows) :
    rows.length = 1 + assignments.length
  ∧ rows.get? 0 = some (optimal_row opt_choices opt_val)
  ∧ ∀ i choices val, assignments.get? i = some (choices, val) →
      ∃ t, rows.get? (i + 1) = some (candidate_row t choices val opt_val) := by
  simp only [comparison_table, Option.map_eq_some'] at h
  obtain ⟨rs, hrs, rfl⟩ := h
  obtain ⟨hlen, hrows⟩ := candidate_rows_spec opt_val assignments _ rs hrs
  refine ⟨by simp [hlen, Nat.add_comm], rfl, ?_⟩
  intro i choices val hi
  obtain ⟨t, _, hr⟩ := hrows i choices val hi
  exact ⟨t, by simpa using hr⟩

/-- C8 witness: one candidate assignment under an explicit title gives a
two-row table. -/
theorem comparison_row_count_witness :
    ([optimal_row [1] 10, candidate_row "A" [1] 4 10]).length
      = 1 + ([([1], (4 : ℚ))] : List (List Int × ℚ)).length :=
  (comparison_row_count [1] 10 [([1], (4 : ℚ))] ["A"]
    [optimal_row [1] 10, candidate_row "A" [1] 4 10] (by rfl)).1

/-- C5 counterexample: with optimal score 3 and candidate score 1 the
efficiency entry placed in the table is `round(1/3, 3) = 0.333 = 333/1000`,
which is not the exact quotient `1/3`. -/
theorem efficiency_rounded_cex :
    comparison_table [1] 3 [([1], (1 : ℚ))] ["A"]
      = some [optimal_row [1] 3, candidate_row "A" [1] 1 3]
  ∧ (candidate_row "A" [1] 1 3).gx = 333/1000
  ∧ (candidate_row "A" [1] 1 3).gx ≠ (1 : ℚ)/3 := by
  refine ⟨by rfl, ?_, ?_⟩
  · norm_num [candidate_row, round3, round_half_even]
  · norm_num [candidate_row, round3, round_half_even]

/-- C5 (amended): every candidate row's efficiency entry equals the
candidate's computed score divided by the optimal score and then rounded to
three decimal places — `round(score / optimal_score, 3)` — rather than the
exact quotient. -/
theorem efficiency_column_rounded (opt_choices : List Int) (opt_val : ℚ)
    (assignments : List (List Int × ℚ)) (assignment_titles : List String)
    (rows : List ComparisonRow)
    (h : comparison_table opt_choices opt_val assignments assignment_titles
      = some rows) :
    ∀ i choices val, assignments.get? i = some (choices, val) →
      ∃ r, rows.get? (i + 1) = some r ∧ r.fx = val
        ∧ r.gx = round3 (val / opt_val) := by
  simp only [comparison_table, Option.map_eq_some'] at h
  obtain ⟨rs, hrs, rfl⟩ := h
  obtain ⟨-, hrows⟩ := candidate_rows_spec opt_val assignments _ rs hrs
  intro i choices val hi
  obtain ⟨t, -, hr⟩ := hrows i choices val hi
  exact ⟨candidate_row t choices val opt_val, by simpa using hr, rfl, rfl⟩

/-- C5 witness: with optimal score 3 and candidate score 1, the candidate
row carries score 1 and efficiency `round3 (1/3)`. -/
theorem efficiency_column_rounded_witness :
    ∃ r, ([optimal_row [1] 3, candidate_row "A" [1] 1 3]).get? 1 = some r
      ∧ r.fx = 1 ∧ r.gx = round3 ((1 : ℚ) / 3) :=
  efficiency_column_rounded [1] 3 [([1], (1 : ℚ))] ["A"]
    [optimal_row [1] 3, candidate_row "A" [1] 1 3] (by rfl) 0 [1] 1 (by rfl)

/-! ### Best/worst grid composer (visualize_best_worst_scenarios, lines 167-214)

`for index in range(5)` reads `best[index]` and `worst[index]` for
`index = 0..4` and renders one panel from each, with metric `"efficiency"`
and value `round(efficiency, 3)`; afterwards one combined figure is saved.
A pair is embedded as the scenario's number together with the assignment's
efficiency; a panel as its composed title and displayed metric value.
Reading `pairs[index]` succeeds for all of `0..4` exactly when the list has
at least five elements — elements past the fifth are never read — and `none`
embeds the `IndexError` raised otherwise, before any figure is saved. -/

/-- `best_titles` of the source. -/
def best_titles : List String :=
  ["Best", "2nd Best", "3rd Best", "4th Best", "5th Best"]

/-- `worst_titles` of the source. -/
def worst_titles : List String :=
  ["Worst", "2nd Worst", "3rd Worst", "4th Worst", "5th Worst"]

/-- One grid panel: the title handed to `visualize_scenario`
(`titles[index] + "\nScenario " + nbr`) and the displayed rounded
efficiency. -/
def bw_panel (titles : List String) (index : ℕ) (p : Int × ℚ) : String × ℚ :=
  (titles.getD index "" ++ ("\nScenario " ++ toString p.1), round3 p.2)

/-- One grid row: the five panels read at indices `0..4`. -/
def bw_row (titles : List String) : List (Int × ℚ) → Option (List (String × ℚ))
  | p0 :: p1 :: p2 :: p3 :: p4 :: _ =>
    some [bw_panel titles 0 p0, bw_panel titles 1 p1, bw_panel titles 2 p2,
          bw_panel titles 3 p3, bw_panel titles 4 p4]
  | _ => none

/-- The grid `visualize_best_worst_scenarios` composes: `some` exactly when
the loop completes and the combined figure is saved. -/
def visualize_best_worst (best worst : List (Int × ℚ)) :
    Option (List (String × ℚ) × List (String × ℚ)) :=
  match bw_row best_titles best, bw_row worst_titles worst with
  | some b, some w => some (b, w)
  | _, _ => none

lemma bw_row_isSome (titles : List String) (pairs : List (Int × ℚ)) :
    (bw_row titles pairs).isSome = true ↔ 5 ≤ pairs.length := by
  match pairs with
  | [] => simp [bw_row]
  | [_] => simp [bw_row]
  | [_, _] => simp [bw_row]
  | [_, _, _] => simp [bw_row]
  | [_, _, _, _] => simp [bw_row]
  | _ :: _ :: _ :: _ :: _ :: rest =>
    simp only [bw_row, Option.isSome_some, List.length_cons, true_iff]
    omega

lemma bw_row_take (titles : List String) (pairs : List (Int × ℚ))
    (h : 5 ≤ pairs.length) :
    bw_row titles (pairs.take 5) = bw_row titles pairs := by
  match pairs with
  | [] => simp at h
  | [_] => simp at h
  | [_, _] => simp at h
  | [_, _, _] => simp at h
  | [_, _, _, _] => simp at h
  | _ :: _ :: _ :: _ :: _ :: rest => rfl

/-- C7 counterexample: a best list of six pairs (and a worst list of five) is
not rejected — the grid is composed and saved, silently ignoring the sixth
pair, identically to the call on the first five pairs alone. -/
theorem bw_truncates_cex :
    (visualize_best_worst
        [(1, 1), (2, 1), (3, 1), (4, 1), (5, 1), (6, 1)]
        [(1, 1), (2, 1), (3, 1), (4, 1), (5, 1)]).isSome = true
  ∧ visualize_best_worst
        [(1, 1), (2, 1), (3, 1), (4, 1), (5, 1), (6, 1)]
        [(1, 1), (2, 1), (3, 1), (4, 1), (5, 1)]
      = visualize_best_worst
        [(1, 1), (2, 1), (3, 1), (4, 1), (5, 1)]
        [(1, 1), (2, 1), (3, 1), (4, 1), (5, 1)] := by
  exact ⟨rfl, rfl⟩

/-- C7 (amended): the composer fails before saving exactly when either list
has fewer than five pairs; a list longer than five is not rejected but
silently truncated — the grid equals the one composed from the first five
pairs of each list. -/
theorem bw_arity_behavior (best worst : List (Int × ℚ)) :
    ((visualize_best_worst best worst).isSome = true
      ↔ 5 ≤ best.length ∧ 5 ≤ worst.length)
  ∧ (5 ≤ best.length → 5 ≤ worst.length →
      visualize_best_worst (best.take 5) (worst.take 5)
        = visualize_best_worst best worst) := by
  constructor
  · constructor
    · intro h
      unfold visualize_best_worst at h
      rcases hb : bw_row best_titles best with - | b
      · rw [hb] at h
        simp at h
      rcases hw : bw_row worst_titles worst with - | w
      · rw [hb, hw] at h
        simp at h
      exact ⟨(bw_row_isSome best_titles best).mp (by simp [hb]),
             (bw_row_isSome worst_titles worst).mp (by simp [hw])⟩
    · rintro ⟨hbl, hwl⟩
      obtain ⟨b, hb⟩ := Option.isSome_iff_exists.mp
        ((bw_row_isSome best_titles best).mpr hbl)
      obtain ⟨w, hw⟩ := Option.isSome_iff_exists.mp
        ((bw_row_isSome worst_titles worst).mpr hwl)
      unfold visualize_best_worst
      rw [hb, hw]
      rfl
  · intro hbl hwl
    unfold visualize_best_worst
    rw [bw_row_take best_titles best hbl, bw_row_take worst_titles worst hwl]

/-- C7 witness: truncating the six-pair best list to its first five pairs
leaves the composed grid unchanged. -/
theorem bw_arity_behavior_witness :
    visualize_best_worst
        (([(1, 1), (2, 1), (3, 1), (4, 1), (5, 1), (6, 1)] :
            List (Int × ℚ)).take 5)
        (([(1, 1), (2, 1), (3, 1), (4, 1), (5, 1)] : List (Int × ℚ)).take 5)
      = visualize_best_worst
        [(1, 1), (2, 1), (3, 1), (4, 1), (5, 1), (6, 1)]
        [(1, 1), (2, 1), (3, 1), (4, 1), (5, 1)] :=
  (bw_arity_behavior
      [(1, 1), (2, 1), (3, 1), (4, 1), (5, 1), (6, 1)]
      [(1, 1), (2, 1), (3, 1), (4, 1), (5, 1)]).2 (by decide) (by decide)

/-! ### Assignment highlight edges (visualize_scenario, lines 58 and 81-86)

```
pseudo_targets = {target: agent_count + target for target in range(1, target_count + 1)}
...
if assignment:
    assignment_edges = []
    for agent, target in assignment.get_assignment_pairs():
        if target:
            assignment_edges.append((agent, pseudo_targets[target]))
```
An assignment pair carries an optional target (`None` embeds Python's
`None`); `if target:` is Python truthiness, false for both `None` and `0`.
`pseudo_targets[target]` on a key outside `1..target_count` is a `KeyError`,
embedded as `none`. -/

/-- The `pseudo_targets` dictionary as a lookup. -/
def pseudo_targets (agent_count target_count : ℕ) (t : Int) : Option Int :=
  if 1 ≤ t ∧ t ≤ (target_count : Int) then some ((agent_count : Int) + t)
  else none

/-- Python truthiness of an assignment pair's target. -/
def py_truthy : Option Int → Bool
  | none => false
  | some t => t != 0

/-- The assignment-highlight edge list built by the loop. -/
def assignment_edges (agent_count target_count : ℕ) :
    List (Int × Option Int) → Option (List (Int × Int))
  | [] => some []
  | (agent, target) :: rest =>
    if py_truthy target then
      match pseudo_targets agent_count target_count (target.getD 0) with
      | some pt =>
        (assignment_edges agent_count target_count rest).map
          (fun es => (agent, pt) :: es)
      | none => none
    else assignment_edges agent_count target_count rest

lemma assignment_edges_eq (A T : ℕ) :
    ∀ pairs : List (Int × Option Int),
      (∀ p ∈ pairs, py_truthy p.2 = true →
        1 ≤ p.2.getD 0 ∧ p.2.getD 0 ≤ (T : Int)) →
      assignment_edges A T pairs =
        some ((pairs.filter (fun p => py_truthy p.2)).map
          (fun p => (p.1, (A : Int) + p.2.getD 0))) := by
  intro pairs
  induction pairs with
  | nil => intro _; rfl
  | cons p rest ih =>
    intro hval
    obtain ⟨agent, target⟩ := p
    have hrest := fun q hq => hval q (List.mem_cons_of_mem _ hq)
    by_cases ht : py_truthy target = true
    · have hbound := hval (agent, target) (List.mem_cons_self _ _) ht
      have hlook : pseudo_targets A T (target.getD 0) =
          some ((A : Int) + target.getD 0) := by
        unfold pseudo_targets
        rw [if_pos hbound]
      simp only [assignment_edges, ht, if_true, hlook, ih hrest,
        Option.map_some', List.filter_cons, List.map_cons]
    · simp only [assignment_edges, ht, if_false, Bool.false_eq_true, ih hrest,
        List.filter_cons]

/-- C10: the drawn assignment-highlight edges are exactly one edge
`(agent, pseudo_target)` per pair whose target is truthy, provided every
truthy target is a real target identifier in `1..target_count`; and a pair
whose target is `0` is skipped exactly as a pair whose target is absent
(`None`), with no edge and no error. -/
theorem assignment_edges_truthy (A T : ℕ) (pairs : List (Int × Option Int))
    (hval : ∀ p ∈ pairs, py_truthy p.2 = true →
      1 ≤ p.2.getD 0 ∧ p.2.getD 0 ≤ (T : Int)) :
    assignment_edges A T pairs =
      some ((pairs.filter (fun p => py_truthy p.2)).map
        (fun p => (p.1, (A : Int) + p.2.getD 0)))
  ∧ ∀ (a : Int) (rest : List (Int × Option Int)),
      assignment_edges A T ((a, some 0) :: rest)
        = assignment_edges A T ((a, none) :: rest) :=
  ⟨assignment_edges_eq A T pairs hval, fun _ _ => rfl⟩

/-- C10 witness: with 3 agents and 2 targets, pairs with targets `1`, `0` and
`None` draw exactly the one edge to pseudo-target `3 + 1`. -/
theorem assignment_edges_truthy_witness :
    assignment_edges 3 2 [(1, some 1), (2, some 0), (3, none)]
      = some [((1 : Int), (4 : Int))] := by
  have h := (assignment_edges_truthy 3 2 [(1, some 1), (2, some 0), (3, none)]
    (by decide)).1
  simpa using h

end SubModMax
